import Mathlib

/-!
Verification of the AUVSI SUAS mission evaluation engine, a shallow
embedding of `server/auvsi_suas/models/mission_config.py`.

The file models the two scoring entry points of `MissionConfig`:
`satisfied_waypoints` and `evaluate_teams`, together with the data-shape of
the `kml` export.  Collaborator functions that live in other modules of the
repository (`TakeoffOrLandingEvent.flights`, `UasTelemetry.by_time_period`,
`UasTelemetry.dedupe`, `UasTelemetry.rates`, `FlyZone.out_of_bounds`,
`ServerInfoAccessLog.rates`, `ObstacleAccessLog.rates`, and the obstacles'
`evaluate_collision_with_uas`) are not part of the evaluated source; they are
abstracted into an `Ext` record of functions, and, where a claim needs their
concrete behaviour, modelled from the specification (see `spec_by_time_period`
and friends below).

Python dictionaries are modelled as functions `κ → Option β` built by
iterated `Function.update`, matching dict insertion; floating point distances
and timestamps are modelled as rationals.
-/

namespace AuvsiSuas

/-- A GPS position: latitude and longitude (`gps_position.py`). -/
structure GpsPosition where
  latitude : ℚ
  longitude : ℚ
deriving DecidableEq, Repr

/-- An altitude-qualified position (`aerial_position.py`). -/
structure AerialPosition where
  gps_position : GpsPosition
  altitude_msl : ℚ
deriving DecidableEq, Repr

/-- A mission waypoint: its 1-based order index and its position
(`waypoint.py`). -/
structure Waypoint where
  order : ℤ
  position : AerialPosition
deriving DecidableEq, Repr

/-- One UAS telemetry log entry (`uas_telemetry.py`): a timestamp, a
reported position and a heading. -/
structure UasLog where
  timestamp : ℚ
  uas_position : AerialPosition
  uas_heading : ℚ
deriving DecidableEq, Repr

/-- A time period with a start and an end timestamp (`time_period.py`). -/
structure TimePeriod where
  start : ℚ
  stop : ℚ
deriving DecidableEq, Repr

/-- A user account; `is_superuser` marks administrators
(django `User`). -/
structure User where
  id : ℕ
  is_superuser : Bool
deriving DecidableEq, Repr

/-- A max/avg pair of interoperability rate statistics; `none` models the
undefined value when fewer than two events exist. -/
structure RatePair where
  max : Option ℚ
  avg : Option ℚ
deriving DecidableEq, Repr

/-- The `interop_times` sub-record of the evaluation data. -/
structure InteropTimes where
  server_info : RatePair
  obst_info : RatePair
  uas_telem : RatePair
deriving DecidableEq, Repr

/-- The per-user evaluation record produced by `evaluate_teams`.  The three
dict-valued entries are modelled as partial maps from integer keys. -/
structure EvalData where
  waypoints_satisfied : ℕ → Option Bool
  out_of_bounds_time : ℚ
  interop_times : InteropTimes
  stationary_obst_collision : ℕ → Option Bool
  moving_obst_collision : ℕ → Option Bool

/-- The fields of `MissionConfig` that the evaluation engine and the kml
export read. -/
structure MissionConfig where
  is_active : Bool
  home_pos : GpsPosition
  mission_waypoints_dist_max : ℚ
  mission_waypoints : List Waypoint
  search_grid_points : List Waypoint
  emergent_last_known_pos : GpsPosition
  off_axis_target_pos : GpsPosition
  sric_pos : GpsPosition
  ir_primary_target_pos : GpsPosition
  ir_secondary_target_pos : GpsPosition
  air_drop_pos : GpsPosition
deriving DecidableEq, Repr

/-- Stable insertion into a list sorted by ascending `order`: the new
waypoint goes in front of the first element whose order is not below its
own, so earlier elements with equal order stay in front. -/
def insert_by_order (w : Waypoint) : List Waypoint → List Waypoint
  | [] => [w]
  | x :: xs =>
    if x.order < w.order then x :: insert_by_order w xs
    else w :: x :: xs

/-- Django's `order_by('order')`: the waypoint list sorted stably in
ascending order of the `order` field, as a structural insertion sort. -/
def order_by : List Waypoint → List Waypoint
  | [] => []
  | w :: ws => insert_by_order w (order_by ws)

/-- The inner loop of `satisfied_waypoints` (mission_config.py lines
116-121): scan the telemetry logs and stop at the first log whose position
is at distance strictly below the threshold from the waypoint position. -/
def satisfied_loop (dist : AerialPosition → AerialPosition → ℚ)
    (dist_max : ℚ) (wpos : AerialPosition) : List UasLog → Bool
  | [] => false
  | uas_log :: rest =>
    if dist uas_log.uas_position wpos < dist_max then true
    else satisfied_loop dist dist_max wpos rest

/-- `MissionConfig.satisfied_waypoints` (mission_config.py lines 104-123):
for each mission waypoint in ascending `order`, whether some telemetry log
came strictly within `mission_waypoints_dist_max`.  The point-to-point
distance function `uas_position.distance_to` lives outside the evaluated
source and is passed in as `dist`. -/
def MissionConfig.satisfied_waypoints
    (dist : AerialPosition → AerialPosition → ℚ) (self : MissionConfig)
    (uas_telemetry_logs : List UasLog) : List Bool :=
  (order_by self.mission_waypoints).map fun waypoint =>
    satisfied_loop dist self.mission_waypoints_dist_max waypoint.position
      uas_telemetry_logs

/-- The empty python dict, as a partial map. -/
def emptyDict {κ β : Type} : κ → Option β := fun _ => none

/-- Python dict insertion `d[k] = v`, as `Function.update`. -/
def dictInsert {κ β : Type} [DecidableEq κ] (m : κ → Option β) (k : κ)
    (v : β) : κ → Option β :=
  Function.update m k (some v)

/-- The collaborator functions `evaluate_teams` calls into other modules of
the repository; those modules are not part of the evaluated source, so the
engine is parameterised over them.  Field-to-source mapping:
`dist` is `AerialPosition.distance_to`; `flights` is
`TakeoffOrLandingEvent.flights`; `by_time_period`, `dedupe` and `uas_rates`
are `UasTelemetry.by_time_period`, `UasTelemetry.dedupe` and
`UasTelemetry.rates` (the latter with its `time_period_logs` argument);
`out_of_bounds` is `FlyZone.out_of_bounds`; `server_info_rates` and
`obstacle_rates` are the two access-log `rates` classmethods; `s_pk`/`m_pk`
are the obstacles' primary keys and `s_collision`/`m_collision` their
`evaluate_collision_with_uas`.  `S`, `M`, `Z` are the types of stationary
obstacles, moving obstacles and fly zones. -/
structure Ext (S M Z : Type) where
  dist : AerialPosition → AerialPosition → ℚ
  flights : User → List TimePeriod
  by_time_period : User → List TimePeriod → List (List UasLog)
  dedupe : List (List UasLog) → List (List UasLog)
  out_of_bounds : List Z → List UasLog → ℚ
  server_info_rates : User → List TimePeriod → Option ℚ × Option ℚ
  obstacle_rates : User → List TimePeriod → Option ℚ × Option ℚ
  uas_rates : User → List TimePeriod → List (List UasLog) →
    Option ℚ × Option ℚ
  s_pk : S → ℕ
  m_pk : M → ℕ
  s_collision : S → List UasLog → Bool
  m_collision : M → List UasLog → Bool

/-- The per-user deduped, per-flight-period telemetry logs computed at
mission_config.py lines 172-174. -/
def userPeriodLogs {S M Z : Type} (ext : Ext S M Z) (user : User) :
    List (List UasLog) :=
  ext.dedupe (ext.by_time_period user (ext.flights user))

/-- The flattened full telemetry history of mission_config.py line 175:
`uas_logs = list(itertools.chain.from_iterable(uas_period_logs))`. -/
def userLogs {S M Z : Type} (ext : Ext S M Z) (user : User) : List UasLog :=
  (userPeriodLogs ext user).flatten

/-- The body of the per-user loop of `evaluate_teams` (mission_config.py
lines 166-226): builds one user's evaluation record. -/
def evalUser {S M Z : Type} (ext : Ext S M Z) (mc : MissionConfig)
    (fly_zones : List Z) (stationary_obstacles : List S)
    (moving_obstacles : List M) (user : User) : EvalData :=
  let flight_periods := ext.flights user
  let uas_period_logs := ext.dedupe (ext.by_time_period user flight_periods)
  let uas_logs := uas_period_logs.flatten
  let waypoints_hit := mc.satisfied_waypoints ext.dist uas_logs
  let waypoints_keyed := waypoints_hit.enum.foldl
    (fun m p => dictInsert m (p.1 + 1) p.2) emptyDict
  let out_of_bounds_time := uas_period_logs.foldl
    (fun acc logs => acc + ext.out_of_bounds fly_zones logs) 0
  let server_info_times := ext.server_info_rates user flight_periods
  let obstacle_times := ext.obstacle_rates user flight_periods
  let uas_telemetry_times :=
    ext.uas_rates user flight_periods uas_period_logs
  let interop_times : InteropTimes :=
    { server_info := { max := server_info_times.1, avg := server_info_times.2 }
      obst_info := { max := obstacle_times.1, avg := obstacle_times.2 }
      uas_telem :=
        { max := uas_telemetry_times.1, avg := uas_telemetry_times.2 } }
  let stationary_collisions := stationary_obstacles.foldl
    (fun m obst => dictInsert m (ext.s_pk obst)
      (ext.s_collision obst uas_logs)) emptyDict
  let moving_collisions := moving_obstacles.foldl
    (fun m obst => dictInsert m (ext.m_pk obst)
      (ext.m_collision obst uas_logs)) emptyDict
  { waypoints_satisfied := waypoints_keyed
    out_of_bounds_time := out_of_bounds_time
    interop_times := interop_times
    stationary_obst_collision := stationary_collisions
    moving_obst_collision := moving_collisions }

/-- `MissionConfig.evaluate_teams` (mission_config.py lines 125-228): fold
over all users, skipping administrators (`is_superuser`) and inserting each
remaining user's evaluation record into the results dict. -/
def MissionConfig.evaluate_teams {S M Z : Type} (self : MissionConfig)
    (ext : Ext S M Z) (fly_zones : List Z) (stationary_obstacles : List S)
    (moving_obstacles : List M) (users : List User) :
    User → Option EvalData :=
  users.foldl
    (fun results user =>
      if user.is_superuser then results
      else dictInsert results user
        (evalUser ext self fly_zones stationary_obstacles moving_obstacles
          user))
    emptyDict

/-- Modelled from the spec: `UasTelemetry.by_time_period` is missing from
the evaluated source; per §4.3 it partitions a competitor's time-ordered
telemetry into one sub-sequence per flight period, keeping the records whose
timestamp falls within that period. -/
def spec_by_time_period (telemetry : User → List UasLog) (user : User)
    (periods : List TimePeriod) : List (List UasLog) :=
  periods.map fun p =>
    (telemetry user).filter fun l =>
      decide (p.start ≤ l.timestamp) && decide (l.timestamp ≤ p.stop)

/-- Modelled from the spec: the per-sequence part of `UasTelemetry.dedupe`
(missing from the evaluated source); per §4.3 consecutive records carrying
identical position and heading are collapsed to their first occurrence. -/
def spec_dedupe_seq : List UasLog → List UasLog
  | [] => []
  | [a] => [a]
  | a :: b :: rest =>
    if a.uas_position = b.uas_position ∧ a.uas_heading = b.uas_heading then
      spec_dedupe_seq (a :: rest)
    else a :: spec_dedupe_seq (b :: rest)
termination_by l => l.length

/-- Modelled from the spec: consecutive-event time gaps of a timestamp
list (§4.6). -/
def spec_gaps (ts : List ℚ) : List ℚ :=
  (ts.zip ts.tail).map fun p => p.2 - p.1

/-- Modelled from the spec: maximum and arithmetic-mean gap, undefined
(`none`, `none`) when fewer than two qualifying events exist (§4.6). -/
def spec_gap_stats : List ℚ → Option ℚ × Option ℚ
  | [] => (none, none)
  | g :: gs =>
    (some (gs.foldl max g),
     some ((g :: gs).sum / ((g :: gs).length : ℚ)))

/-- Modelled from the spec: `ServerInfoAccessLog.rates` and
`ObstacleAccessLog.rates` are missing from the evaluated source; per §4.6
events are restricted to each flight period, consecutive gaps collected
across all periods, and max/avg reported. -/
def spec_access_rates (events : List ℚ) (periods : List TimePeriod) :
    Option ℚ × Option ℚ :=
  spec_gap_stats
    ((periods.map fun p =>
      spec_gaps (events.filter fun t =>
        decide (p.start ≤ t) && decide (t ≤ p.stop))).flatten)

/-- Modelled from the spec: `UasTelemetry.rates` called with
`time_period_logs` (missing from the evaluated source); per §4.6 the
telemetry class reuses the already-deduped per-period telemetry
timestamps. -/
def spec_uas_rates (period_logs : List (List UasLog)) :
    Option ℚ × Option ℚ :=
  spec_gap_stats
    ((period_logs.map fun ls => spec_gaps (ls.map UasLog.timestamp)).flatten)

/-- Modelled from the spec: a sample is in bounds iff it lies within at
least one configured fly zone (§4.1); with no zones every position is out
of bounds. -/
def spec_in_bounds {Z : Type} (inZone : Z → UasLog → Bool) (zones : List Z)
    (l : UasLog) : Bool :=
  zones.any fun z => inZone z l

/-- Modelled from the spec: `FlyZone.out_of_bounds` is missing from the
evaluated source; per §4.5 the reported out-of-bounds duration of one
period's samples: for each consecutive sample pair whose first sample is
out of bounds, the time to the next sample is accumulated. -/
def spec_out_of_bounds {Z : Type} (inZone : Z → UasLog → Bool)
    (zones : List Z) (logs : List UasLog) : ℚ :=
  ((logs.zip logs.tail).map fun p =>
    if spec_in_bounds inZone zones p.1 then 0
    else p.2.timestamp - p.1.timestamp).sum

/-- Modelled from the spec: `evaluate_collision_with_uas` (stationary and
moving obstacles; missing from the evaluated source); per §4.7 a collision
occurs iff some telemetry sample lies inside the obstacle volume at its
timestamp, the containment primitive being supplied by GeoMetrics. -/
def spec_collision {O : Type} (inside : O → UasLog → Bool) (o : O)
    (logs : List UasLog) : Bool :=
  logs.any (inside o)

/-- The `Ext` collaborator record assembled from the spec-modelled
functions, parameterised by the per-user raw event data and the geometric
containment primitives. -/
def specExt {S M Z : Type} (dist : AerialPosition → AerialPosition → ℚ)
    (telemetry : User → List UasLog) (flights : User → List TimePeriod)
    (server_events obstacle_events : User → List ℚ)
    (inZone : Z → UasLog → Bool) (s_pk : S → ℕ) (m_pk : M → ℕ)
    (inS : S → UasLog → Bool) (inM : M → UasLog → Bool) : Ext S M Z where
  dist := dist
  flights := flights
  by_time_period := spec_by_time_period telemetry
  dedupe := fun ls => ls.map spec_dedupe_seq
  out_of_bounds := spec_out_of_bounds inZone
  server_info_rates := fun u ps => spec_access_rates (server_events u) ps
  obstacle_rates := fun u ps => spec_access_rates (obstacle_events u) ps
  uas_rates := fun _ _ period_logs => spec_uas_rates period_logs
  s_pk := s_pk
  m_pk := m_pk
  s_collision := spec_collision inS
  m_collision := spec_collision inM

/-- The coordinate triple (longitude, latitude, altitude) the kml export
emits for a waypoint (mission_config.py lines 330-332 and 358-359). -/
def kml_coord (w : Waypoint) : ℚ × ℚ × ℚ :=
  (w.position.gps_position.longitude, w.position.gps_position.latitude,
   w.position.altitude_msl)

/-- The geometric content of the kml document built by
`MissionConfig.kml`: the waypoint linestring and the closed search-area
polygon boundary. -/
structure KmlData where
  waypoint_coords : List (ℚ × ℚ × ℚ)
  search_area_boundary : List (ℚ × ℚ × ℚ)
deriving DecidableEq, Repr

/-- `MissionConfig.kml` (mission_config.py lines 299-374), modelled on its
geometric output; styling and point-marker side effects carry no data and
are omitted.  Line 368 executes `search_area.append(search_area[0])`
unconditionally after the loop over `search_grid_points`; on an empty list
the indexing `search_area[0]` raises `IndexError`, modelled as `none`. -/
def MissionConfig.kml (self : MissionConfig) : Option KmlData :=
  let waypoints := self.mission_waypoints.map kml_coord
  let search_area := self.search_grid_points.map kml_coord
  match search_area.head? with
  | none => none
  | some c0 =>
    some { waypoint_coords := waypoints
           search_area_boundary := search_area ++ [c0] }

/-- The all-zero GPS position, for concrete test inputs. -/
def gps0 : GpsPosition := { latitude := 0, longitude := 0 }

/-- The all-zero aerial position, for concrete test inputs. -/
def pos0 : AerialPosition := { gps_position := gps0, altitude_msl := 0 }

/-- A waypoint at the origin with the given order value. -/
def mkWaypoint (o : ℤ) : Waypoint := { order := o, position := pos0 }

/-- A mission configuration with no waypoints and no search grid, for
concrete test inputs. -/
def baseMC : MissionConfig where
  is_active := true
  home_pos := gps0
  mission_waypoints_dist_max := 1
  mission_waypoints := []
  search_grid_points := []
  emergent_last_known_pos := gps0
  off_axis_target_pos := gps0
  sric_pos := gps0
  ir_primary_target_pos := gps0
  ir_secondary_target_pos := gps0
  air_drop_pos := gps0

/-- A mission whose two waypoints carry the non-consecutive order values 3
and 7. -/
def gapMC : MissionConfig :=
  { baseMC with mission_waypoints := [mkWaypoint 3, mkWaypoint 7] }

/-- A trivial collaborator record over unit obstacle and zone types: no
telemetry, no flights, no access events, nothing contained anywhere. -/
def trivExt : Ext Unit Unit Unit :=
  specExt (fun _ _ => 0) (fun _ => []) (fun _ => []) (fun _ => [])
    (fun _ => []) (fun _ _ => false) (fun _ => 1) (fun _ => 1)
    (fun _ _ => false) (fun _ _ => false)

/-- A plain competitor account. -/
def u1 : User := { id := 1, is_superuser := false }

/-- A second competitor account. -/
def u2 : User := { id := 2, is_superuser := false }

/-- An administrator account. -/
def admin1 : User := { id := 3, is_superuser := true }

/-- A telemetry log at the origin at time 0. -/
def logA : UasLog := { timestamp := 0, uas_position := pos0, uas_heading := 0 }

/-- A telemetry log at the origin at time 1. -/
def logB : UasLog := { timestamp := 1, uas_position := pos0, uas_heading := 0 }

/-- The telemetry scan of one waypoint (early exit at the first hit) is an
any-match over the logs. -/
theorem satisfied_loop_eq_any (dist : AerialPosition → AerialPosition → ℚ)
    (dist_max : ℚ) (wpos : AerialPosition) (logs : List UasLog) :
    satisfied_loop dist dist_max wpos logs
    = logs.any fun l => decide (dist l.uas_position wpos < dist_max) := by
  induction logs with
  | nil => rfl
  | cons a t ih =>
    by_cases h : dist a.uas_position wpos < dist_max <;>
      simp [satisfied_loop, h, ih]

/-- The waypoint result list, entry by entry: entry i is the any-match of
the telemetry logs against the i-th waypoint in ascending order. -/
theorem satisfied_waypoints_getElem
    (dist : AerialPosition → AerialPosition → ℚ) (mc : MissionConfig)
    (logs : List UasLog) (i : ℕ)
    (hi : i < (order_by mc.mission_waypoints).length) :
    (mc.satisfied_waypoints dist logs)[i]?
    = some (logs.any fun l =>
        decide (dist l.uas_position
          (((order_by mc.mission_waypoints).get ⟨i, hi⟩).position)
          < mc.mission_waypoints_dist_max)) := by
  simp [MissionConfig.satisfied_waypoints, List.getElem?_eq_getElem hi,
    satisfied_loop_eq_any]

/-- A dict-building fold leaves keys it never writes unchanged. -/
theorem foldl_dictInsert_apply_ne {α κ β : Type} [DecidableEq κ]
    (f : α → κ) (g : α → β) (k : κ) (l : List α) (m : κ → Option β)
    (h : ∀ a ∈ l, f a ≠ k) :
    l.foldl (fun d a => dictInsert d (f a) (g a)) m k = m k := by
  induction l generalizing m with
  | nil => rfl
  | cons b t ih =>
    rw [List.foldl_cons, ih _ fun a ha => h a (List.mem_cons_of_mem _ ha)]
    simp [dictInsert,
      Function.update_noteq (Ne.symm (h b (List.mem_cons_self _ _)))]

/-- A dict-building fold sends a written key to the value written for it,
provided every write to that key carries the same value. -/
theorem foldl_dictInsert_apply_mem {α κ β : Type} [DecidableEq κ]
    (f : α → κ) (g : α → β) (k : κ) (v : β) (l : List α) :
    ∀ m : κ → Option β,
      (∀ a ∈ l, f a = k → g a = v) → (∃ a ∈ l, f a = k) →
      l.foldl (fun d a => dictInsert d (f a) (g a)) m k = some v := by
  induction l with
  | nil =>
    intro m _ hex
    rcases hex with ⟨a, ha, _⟩
    cases ha
  | cons b t ih =>
    intro m hv hex
    rw [List.foldl_cons]
    by_cases ht : ∃ a ∈ t, f a = k
    · exact ih _ (fun a ha hk => hv a (List.mem_cons_of_mem _ ha) hk) ht
    · have hb : f b = k := by
        rcases hex with ⟨a, ha, hk⟩
        rcases List.mem_cons.mp ha with rfl | hat
        · exact hk
        · exact absurd ⟨a, hat, hk⟩ ht
      rw [foldl_dictInsert_apply_ne f g k t _ fun a ha hk => ht ⟨a, ha, hk⟩]
      rw [← hv b (List.mem_cons_self _ _) hb, ← hb]
      simp [dictInsert]

/-- Folding addition over a list starting from an accumulator is the
accumulator plus the sum of the mapped values. -/
theorem foldl_add_eq_sum {α : Type} (f : α → ℚ) (l : List α) (a : ℚ) :
    l.foldl (fun acc x => acc + f x) a = a + (l.map f).sum := by
  induction l generalizing a with
  | nil => simp
  | cons b t ih => simp [ih, add_assoc]

/-- `any` is invariant under permutation of the list. -/
theorem perm_any_eq {α : Type} {l1 l2 : List α} (h : l1.Perm l2)
    (p : α → Bool) : l1.any p = l2.any p := by
  rw [Bool.eq_iff_iff]
  simp only [List.any_eq_true]
  exact ⟨fun ⟨x, hx, hp⟩ => ⟨x, h.mem_iff.mp hx, hp⟩,
         fun ⟨x, hx, hp⟩ => ⟨x, h.mem_iff.mpr hx, hp⟩⟩

/-- The out-of-bounds accumulation loop of `evalUser`, as written. -/
theorem evalUser_out_of_bounds_time {S M Z : Type} (ext : Ext S M Z)
    (mc : MissionConfig) (fz : List Z) (so : List S) (mo : List M)
    (u : User) :
    (evalUser ext mc fz so mo u).out_of_bounds_time
    = (userPeriodLogs ext u).foldl
        (fun acc logs => acc + ext.out_of_bounds fz logs) 0 := rfl

/-- The interop-times record of `evalUser`, as written. -/
theorem evalUser_interop_times {S M Z : Type} (ext : Ext S M Z)
    (mc : MissionConfig) (fz : List Z) (so : List S) (mo : List M)
    (u : User) :
    (evalUser ext mc fz so mo u).interop_times
    = { server_info :=
          { max := (ext.server_info_rates u (ext.flights u)).1
            avg := (ext.server_info_rates u (ext.flights u)).2 }
        obst_info :=
          { max := (ext.obstacle_rates u (ext.flights u)).1
            avg := (ext.obstacle_rates u (ext.flights u)).2 }
        uas_telem :=
          { max := (ext.uas_rates u (ext.flights u)
              (userPeriodLogs ext u)).1
            avg := (ext.uas_rates u (ext.flights u)
              (userPeriodLogs ext u)).2 } } := rfl

/-- The waypoint dict of one user's record: key i+1 holds the any-match
verdict of the i-th waypoint in ascending order against the user's full
deduped telemetry history. -/
theorem evalUser_waypoints_apply {S M Z : Type} (ext : Ext S M Z)
    (mc : MissionConfig) (fz : List Z) (so : List S) (mo : List M)
    (u : User) (i : ℕ) (hi : i < (order_by mc.mission_waypoints).length) :
    (evalUser ext mc fz so mo u).waypoints_satisfied (i + 1)
    = some ((userLogs ext u).any fun l =>
        decide (ext.dist l.uas_position
          (((order_by mc.mission_waypoints).get ⟨i, hi⟩).position)
          < mc.mission_waypoints_dist_max)) := by
  have hws : (evalUser ext mc fz so mo u).waypoints_satisfied
      = (mc.satisfied_waypoints ext.dist (userLogs ext u)).enum.foldl
          (fun d p => dictInsert d (p.1 + 1) p.2) emptyDict := rfl
  have hlen : i < (mc.satisfied_waypoints ext.dist (userLogs ext u)).length := by
    simpa [MissionConfig.satisfied_waypoints] using hi
  have hget := satisfied_waypoints_getElem ext.dist mc (userLogs ext u) i hi
  rw [List.getElem?_eq_getElem hlen] at hget
  have hv := Option.some.inj hget
  rw [hws, ← hv]
  apply foldl_dictInsert_apply_mem (fun p : ℕ × Bool => p.1 + 1)
    (fun p : ℕ × Bool => p.2) (i + 1)
  · intro p hp hk
    have hmem := List.mem_enum_iff_getElem?.mp hp
    have hpi : p.1 = i := by omega
    rw [hpi, List.getElem?_eq_getElem hlen] at hmem
    have := Option.some.inj hmem
    simp [← this]
  · refine ⟨(i, (mc.satisfied_waypoints ext.dist (userLogs ext u)).get
      ⟨i, hlen⟩), ?_, rfl⟩
    exact List.mem_enum_iff_getElem?.mpr
      (by simp [List.getElem?_eq_getElem hlen])

/-- The stationary-obstacle dict of one user's record: the key of an
obstacle holds its own collision verdict against the user's full deduped
telemetry history, provided obstacles sharing its key agree on the
verdict. -/
theorem evalUser_stationary_apply {S M Z : Type} (ext : Ext S M Z)
    (mc : MissionConfig) (fz : List Z) (so : List S) (mo : List M)
    (u : User) (o : S) (ho : o ∈ so)
    (hv : ∀ o2 ∈ so, ext.s_pk o2 = ext.s_pk o →
      ext.s_collision o2 (userLogs ext u)
        = ext.s_collision o (userLogs ext u)) :
    (evalUser ext mc fz so mo u).stationary_obst_collision (ext.s_pk o)
    = some (ext.s_collision o (userLogs ext u)) := by
  have h : (evalUser ext mc fz so mo u).stationary_obst_collision
      = so.foldl (fun d obst => dictInsert d (ext.s_pk obst)
          (ext.s_collision obst (userLogs ext u))) emptyDict := rfl
  rw [h]
  exact foldl_dictInsert_apply_mem _ _ _ _ so emptyDict hv ⟨o, ho, rfl⟩

/-- The moving-obstacle dict of one user's record, as for the stationary
one. -/
theorem evalUser_moving_apply {S M Z : Type} (ext : Ext S M Z)
    (mc : MissionConfig) (fz : List Z) (so : List S) (mo : List M)
    (u : User) (o : M) (ho : o ∈ mo)
    (hv : ∀ o2 ∈ mo, ext.m_pk o2 = ext.m_pk o →
      ext.m_collision o2 (userLogs ext u)
        = ext.m_collision o (userLogs ext u)) :
    (evalUser ext mc fz so mo u).moving_obst_collision (ext.m_pk o)
    = some (ext.m_collision o (userLogs ext u)) := by
  have h : (evalUser ext mc fz so mo u).moving_obst_collision
      = mo.foldl (fun d obst => dictInsert d (ext.m_pk obst)
          (ext.m_collision obst (userLogs ext u))) emptyDict := rfl
  rw [h]
  exact foldl_dictInsert_apply_mem _ _ _ _ mo emptyDict hv ⟨o, ho, rfl⟩

/-- The user-results fold of `evaluate_teams`, characterised pointwise:
a non-administrator present in the user list maps to their record, every
other key keeps the initial dict's value. -/
theorem evaluate_teams_foldl_apply {S M Z : Type} (ext : Ext S M Z)
    (mc : MissionConfig) (fz : List Z) (so : List S) (mo : List M)
    (users : List User) : ∀ (m : User → Option EvalData) (u : User),
    users.foldl
      (fun results user =>
        if user.is_superuser then results
        else dictInsert results user (evalUser ext mc fz so mo user)) m u
    = if u ∈ users ∧ u.is_superuser = false
      then some (evalUser ext mc fz so mo u) else m u := by
  induction users with
  | nil => intro m u; simp
  | cons b t ih =>
    intro m u
    rw [List.foldl_cons, ih]
    by_cases hmem : u ∈ t ∧ u.is_superuser = false
    · rw [if_pos hmem, if_pos ⟨List.mem_cons_of_mem _ hmem.1, hmem.2⟩]
    · rw [if_neg hmem]
      by_cases hbs : b.is_superuser = true
      · have hcond : ¬(u ∈ b :: t ∧ u.is_superuser = false) := by
          rintro ⟨hm, hs⟩
          rcases List.mem_cons.mp hm with rfl | hmt
          · rw [hs] at hbs; cases hbs
          · exact hmem ⟨hmt, hs⟩
        rw [if_pos hbs, if_neg hcond]
      · by_cases hub : u = b
        · subst hub
          have hcond : u ∈ u :: t ∧ u.is_superuser = false :=
            ⟨List.mem_cons_self _ _, Bool.not_eq_true _ ▸ hbs⟩
          rw [if_neg hbs, if_pos hcond]
          simp [dictInsert]
        · have hcond : ¬(u ∈ b :: t ∧ u.is_superuser = false) := by
            rintro ⟨hm, hs⟩
            rcases List.mem_cons.mp hm with rfl | hmt
            · exact hub rfl
            · exact hmem ⟨hmt, hs⟩
          rw [if_neg hbs, if_neg hcond]
          simp [dictInsert, Function.update_noteq hub]

/-- `evaluate_teams`, characterised pointwise: a non-administrator present
in the user list maps to their record, everyone else to nothing. -/
theorem evaluate_teams_apply {S M Z : Type} (ext : Ext S M Z)
    (mc : MissionConfig) (fz : List Z) (so : List S) (mo : List M)
    (users : List User) (u : User) :
    mc.evaluate_teams ext fz so mo users u
    = if u ∈ users ∧ u.is_superuser = false
      then some (evalUser ext mc fz so mo u) else none :=
  evaluate_teams_foldl_apply ext mc fz so mo users emptyDict u

/-- A user whose deduped per-period telemetry is empty, and whose rate
collaborators report undefined statistics, receives the all-default
record. -/
theorem evalUser_empty_logs {S M Z : Type} (ext : Ext S M Z)
    (mc : MissionConfig) (fz : List Z) (so : List S) (mo : List M)
    (u : User) (hperiods : userPeriodLogs ext u = [])
    (hsrv : ext.server_info_rates u (ext.flights u) = (none, none))
    (hobst : ext.obstacle_rates u (ext.flights u) = (none, none))
    (huas : ext.uas_rates u (ext.flights u) (userPeriodLogs ext u)
      = (none, none))
    (hscol : ∀ o : S, ext.s_collision o [] = false)
    (hmcol : ∀ o : M, ext.m_collision o [] = false) :
    (∀ i : ℕ, i < (order_by mc.mission_waypoints).length →
        (evalUser ext mc fz so mo u).waypoints_satisfied (i + 1)
          = some false)
    ∧ (evalUser ext mc fz so mo u).out_of_bounds_time = 0
    ∧ (evalUser ext mc fz so mo u).interop_times
        = { server_info := { max := none, avg := none }
            obst_info := { max := none, avg := none }
            uas_telem := { max := none, avg := none } }
    ∧ (∀ o ∈ so, (evalUser ext mc fz so mo u).stationary_obst_collision
        (ext.s_pk o) = some false)
    ∧ ∀ o ∈ mo, (evalUser ext mc fz so mo u).moving_obst_collision
        (ext.m_pk o) = some false := by
  have hlogs : userLogs ext u = [] := by simp [userLogs, hperiods]
  refine ⟨?_, ?_, ?_, ?_, ?_⟩
  · intro i hi
    rw [evalUser_waypoints_apply ext mc fz so mo u i hi, hlogs]
    rfl
  · rw [evalUser_out_of_bounds_time, hperiods]; rfl
  · rw [evalUser_interop_times, hsrv, hobst, huas]
  · intro o ho
    have hcv : ∀ o2 : S, ext.s_collision o2 (userLogs ext u) = false :=
      fun o2 => by rw [hlogs]; exact hscol o2
    have h := evalUser_stationary_apply ext mc fz so mo u o ho
      (fun o2 _ _ => by rw [hcv o2, hcv o])
    rw [hcv o] at h
    exact h
  · intro o ho
    have hcv : ∀ o2 : M, ext.m_collision o2 (userLogs ext u) = false :=
      fun o2 => by rw [hlogs]; exact hmcol o2
    have h := evalUser_moving_apply ext mc fz so mo u o ho
      (fun o2 _ _ => by rw [hcv o2, hcv o])
    rw [hcv o] at h
    exact h

/-- C1: for every mission waypoint (the i-th in ascending order of the
order field) and every telemetry list, satisfied_waypoints reports it
satisfied iff some log's position is at distance strictly below
mission_waypoints_dist_max from the waypoint's position; when every log is
at distance at least the threshold (in particular at exactly the
threshold) the waypoint is not satisfied, and with an empty telemetry list
every waypoint is unsatisfied. -/
theorem C1_satisfied_waypoints_iff
    (dist : AerialPosition → AerialPosition → ℚ) (mc : MissionConfig)
    (logs : List UasLog) (i : ℕ)
    (hi : i < (order_by mc.mission_waypoints).length) :
    ((mc.satisfied_waypoints dist logs)[i]? = some true ↔
      ∃ l ∈ logs, dist l.uas_position
        ((order_by mc.mission_waypoints).get ⟨i, hi⟩).position
        < mc.mission_waypoints_dist_max)
    ∧ ((∀ l ∈ logs, mc.mission_waypoints_dist_max ≤
          dist l.uas_position
            ((order_by mc.mission_waypoints).get ⟨i, hi⟩).position) →
        (mc.satisfied_waypoints dist logs)[i]? = some false)
    ∧ (mc.satisfied_waypoints dist [])[i]? = some false := by
  refine ⟨?_, ?_, ?_⟩
  · rw [satisfied_waypoints_getElem dist mc logs i hi]
    simp [List.any_eq_true]
  · intro h
    rw [satisfied_waypoints_getElem dist mc logs i hi]
    simp only [Option.some.injEq]
    rw [List.any_eq_false]
    intro l hl
    simp only [decide_eq_true_eq, not_lt]
    exact h l hl
  · rw [satisfied_waypoints_getElem dist mc [] i hi]
    rfl

/-- C1 witness: the mission with waypoint orders 3 and 7, one telemetry
log, and the constant distance 1 equal to the threshold. -/
theorem C1_witness :
    (0 < (order_by gapMC.mission_waypoints).length)
    ∧ (((gapMC.satisfied_waypoints (fun _ _ => 1) [logA])[0]? = some true ↔
          ∃ l ∈ [logA], (1 : ℚ) < gapMC.mission_waypoints_dist_max)
        ∧ ((∀ l ∈ [logA],
              gapMC.mission_waypoints_dist_max ≤ (1 : ℚ)) →
            (gapMC.satisfied_waypoints (fun _ _ => 1) [logA])[0]?
              = some false)
        ∧ (gapMC.satisfied_waypoints (fun _ _ => 1)
            ([] : List UasLog))[0]? = some false) :=
  ⟨by decide,
   C1_satisfied_waypoints_iff (fun _ _ => 1) gapMC [logA] 0 (by decide)⟩

/-- C9: satisfied_waypoints is invariant under permutation of the
telemetry log list: each waypoint's verdict is an any-match over the logs,
so the early-exit scan order cannot change the outcome. -/
theorem C9_satisfied_waypoints_perm
    (dist : AerialPosition → AerialPosition → ℚ) (mc : MissionConfig)
    (logs1 logs2 : List UasLog) (h : logs1.Perm logs2) :
    mc.satisfied_waypoints dist logs1
      = mc.satisfied_waypoints dist logs2 := by
  unfold MissionConfig.satisfied_waypoints
  apply List.map_congr_left
  intro w _
  rw [satisfied_loop_eq_any, satisfied_loop_eq_any, perm_any_eq h]

/-- C9 witness: two concrete two-log lists that are permutations of each
other. -/
theorem C9_witness :
    List.Perm [logA, logB] [logB, logA]
    ∧ gapMC.satisfied_waypoints (fun _ _ => 0) [logA, logB]
      = gapMC.satisfied_waypoints (fun _ _ => 0) [logB, logA] :=
  ⟨by decide,
   C9_satisfied_waypoints_perm (fun _ _ => 0) gapMC [logA, logB]
     [logB, logA] (by decide)⟩

/-- C2 counterexample: with waypoint order values 3 and 7 the
waypoints_satisfied dict is keyed 1 and 2 (enumeration positions), not by
the order values 3 and 7 as the claim states: key 3 is absent. -/
theorem C2_counterexample :
    (order_by gapMC.mission_waypoints).map Waypoint.order = [3, 7]
    ∧ (evalUser trivExt gapMC [] [] [] u1).waypoints_satisfied 3 = none
    ∧ (evalUser trivExt gapMC [] [] [] u1).waypoints_satisfied 7 = none
    ∧ (evalUser trivExt gapMC [] [] [] u1).waypoints_satisfied 1
        = some false
    ∧ (evalUser trivExt gapMC [] [] [] u1).waypoints_satisfied 2
        = some false :=
  ⟨by decide, by decide, by decide, by decide, by decide⟩

/-- C2 (amended): the waypoints_satisfied entry of a competitor's record
maps key i+1, the 1-based position of the i-th waypoint in ascending order
of the order field (equal to the order value only when the order values
are exactly 1..n), to that waypoint's satisfaction verdict over the
competitor's deduped period-flattened telemetry history. -/
theorem C2_amended_waypoints_keyed {S M Z : Type} (ext : Ext S M Z)
    (mc : MissionConfig) (fz : List Z) (so : List S) (mo : List M)
    (u : User) (i : ℕ)
    (hi : i < (order_by mc.mission_waypoints).length) :
    (evalUser ext mc fz so mo u).waypoints_satisfied (i + 1)
    = some ((userLogs ext u).any fun l =>
        decide (ext.dist l.uas_position
          ((order_by mc.mission_waypoints).get ⟨i, hi⟩).position
          < mc.mission_waypoints_dist_max)) :=
  evalUser_waypoints_apply ext mc fz so mo u i hi

/-- C2 witness: first waypoint of the order-3-and-7 mission. -/
theorem C2_amended_witness :
    (0 < (order_by gapMC.mission_waypoints).length)
    ∧ (evalUser trivExt gapMC [] [] [] u1).waypoints_satisfied (0 + 1)
      = some ((userLogs trivExt u1).any fun l =>
          decide (trivExt.dist l.uas_position
            ((order_by gapMC.mission_waypoints).get ⟨0, by decide⟩).position
            < gapMC.mission_waypoints_dist_max)) :=
  ⟨by decide,
   C2_amended_waypoints_keyed trivExt gapMC [] [] [] u1 0 (by decide)⟩

/-- C3: administrator (superuser) accounts never appear as keys of the
evaluate_teams result, whatever their telemetry, flight or access-log
activity (all of which lives in the collaborator record). -/
theorem C3_no_admin_in_results {S M Z : Type} (ext : Ext S M Z)
    (mc : MissionConfig) (fz : List Z) (so : List S) (mo : List M)
    (users : List User) (u : User) (h : u.is_superuser = true) :
    mc.evaluate_teams ext fz so mo users u = none := by
  rw [evaluate_teams_apply]
  simp [h]

/-- C3 witness: a concrete administrator in the user list. -/
theorem C3_witness :
    admin1.is_superuser = true
    ∧ baseMC.evaluate_teams trivExt [] [] [] [u1, admin1] admin1 = none :=
  ⟨rfl,
   C3_no_admin_in_results trivExt baseMC [] [] [] [u1, admin1] admin1 rfl⟩

/-- C4: a non-administrator competitor with zero recorded flight periods
(hence zero in-period telemetry) is still a key of the evaluate_teams
result, with a full default record: every waypoint unsatisfied, zero
out-of-bounds time, undefined rate statistics for all three classes and no
collision for any obstacle.  The collaborators missing from the evaluated
source are the spec-modelled ones. -/
theorem C4_default_record {S M Z : Type}
    (dist : AerialPosition → AerialPosition → ℚ)
    (telemetry : User → List UasLog) (flights : User → List TimePeriod)
    (server_events obstacle_events : User → List ℚ)
    (inZone : Z → UasLog → Bool) (s_pk : S → ℕ) (m_pk : M → ℕ)
    (inS : S → UasLog → Bool) (inM : M → UasLog → Bool)
    (mc : MissionConfig) (fz : List Z) (so : List S) (mo : List M)
    (users : List User) (u : User)
    (hmem : u ∈ users) (hsup : u.is_superuser = false)
    (hfl : flights u = []) :
    ∃ r, mc.evaluate_teams
        (specExt dist telemetry flights server_events obstacle_events
          inZone s_pk m_pk inS inM) fz so mo users u = some r
      ∧ (∀ i : ℕ, i < (order_by mc.mission_waypoints).length →
          r.waypoints_satisfied (i + 1) = some false)
      ∧ r.out_of_bounds_time = 0
      ∧ r.interop_times
          = { server_info := { max := none, avg := none }
              obst_info := { max := none, avg := none }
              uas_telem := { max := none, avg := none } }
      ∧ (∀ o ∈ so, r.stationary_obst_collision (s_pk o) = some false)
      ∧ ∀ o ∈ mo, r.moving_obst_collision (m_pk o) = some false := by
  have hperiods : userPeriodLogs
      (specExt dist telemetry flights server_events obstacle_events
        inZone s_pk m_pk inS inM) u = [] := by
    simp [userPeriodLogs, specExt, spec_by_time_period, hfl]
  have hcomp := evalUser_empty_logs
    (specExt dist telemetry flights server_events obstacle_events
      inZone s_pk m_pk inS inM) mc fz so mo u hperiods
    (by simp [specExt, hfl, spec_access_rates, spec_gap_stats])
    (by simp [specExt, hfl, spec_access_rates, spec_gap_stats])
    (by rw [hperiods]; simp [specExt, spec_uas_rates, spec_gap_stats])
    (fun o => rfl) (fun o => rfl)
  refine ⟨evalUser
      (specExt dist telemetry flights server_events obstacle_events
        inZone s_pk m_pk inS inM) mc fz so mo u, ?_, hcomp.1,
    hcomp.2.1, hcomp.2.2.1, hcomp.2.2.2.1, hcomp.2.2.2.2⟩
  rw [evaluate_teams_apply, if_pos ⟨hmem, hsup⟩]

/-- C4 witness: a single competitor with no flights, one stationary and
one moving obstacle. -/
theorem C4_witness :
    (u1 ∈ [u1])
    ∧ u1.is_superuser = false
    ∧ ((fun _ : User => ([] : List TimePeriod)) u1 = [])
    ∧ ∃ r, baseMC.evaluate_teams trivExt [] [()] [()] [u1] u1 = some r
        ∧ (∀ i : ℕ, i < (order_by baseMC.mission_waypoints).length →
            r.waypoints_satisfied (i + 1) = some false)
        ∧ r.out_of_bounds_time = 0
        ∧ r.interop_times
            = { server_info := { max := none, avg := none }
                obst_info := { max := none, avg := none }
                uas_telem := { max := none, avg := none } }
        ∧ (∀ o ∈ ([()] : List Unit),
            r.stationary_obst_collision 1 = some false)
        ∧ ∀ o ∈ ([()] : List Unit),
            r.moving_obst_collision 1 = some false :=
  ⟨by decide, rfl, rfl,
   C4_default_record (fun _ _ => 0) (fun _ => []) (fun _ => [])
     (fun _ => []) (fun _ => []) (fun _ _ => false) (fun _ => 1)
     (fun _ => 1) (fun _ _ => false) (fun _ _ => false) baseMC [] [()] [()]
     [u1] u1 (by decide) rfl rfl⟩

/-- C5: a competitor's out_of_bounds_time is the sum, over that
competitor's flight periods, of the per-period out-of-bounds duration of
that period's own telemetry logs; time between periods contributes
nothing since only per-period log lists enter the sum. -/
theorem C5_out_of_bounds_time_sum {S M Z : Type} (ext : Ext S M Z)
    (mc : MissionConfig) (fz : List Z) (so : List S) (mo : List M)
    (u : User) :
    (evalUser ext mc fz so mo u).out_of_bounds_time
    = ((userPeriodLogs ext u).map fun logs =>
        ext.out_of_bounds fz logs).sum := by
  rw [evalUser_out_of_bounds_time, foldl_add_eq_sum, zero_add]

/-- C6: every stationary and moving obstacle is evaluated independently
against the competitor's full deduped period-flattened telemetry history
(the same single list for all obstacles of both kinds), and the verdict is
recorded under the obstacle's key in the corresponding collision map. -/
theorem C6_collision_maps {S M Z : Type} (ext : Ext S M Z)
    (mc : MissionConfig) (fz : List Z) (so : List S) (mo : List M)
    (u : User) (hs : (so.map ext.s_pk).Nodup)
    (hm : (mo.map ext.m_pk).Nodup) :
    (∀ o ∈ so, (evalUser ext mc fz so mo u).stationary_obst_collision
        (ext.s_pk o) = some (ext.s_collision o (userLogs ext u)))
    ∧ ∀ o ∈ mo, (evalUser ext mc fz so mo u).moving_obst_collision
        (ext.m_pk o) = some (ext.m_collision o (userLogs ext u)) := by
  constructor
  · intro o ho
    apply evalUser_stationary_apply ext mc fz so mo u o ho
    intro o2 h2 hk
    rw [List.inj_on_of_nodup_map hs h2 ho hk]
  · intro o ho
    apply evalUser_moving_apply ext mc fz so mo u o ho
    intro o2 h2 hk
    rw [List.inj_on_of_nodup_map hm h2 ho hk]

/-- C6 witness: one stationary and one moving obstacle with distinct-key
lists. -/
theorem C6_witness :
    ((([()] : List Unit).map trivExt.s_pk).Nodup
      ∧ (([()] : List Unit).map trivExt.m_pk).Nodup)
    ∧ ((∀ o ∈ ([()] : List Unit),
          (evalUser trivExt baseMC [] [()] [()] u1).stationary_obst_collision
            (trivExt.s_pk o)
            = some (trivExt.s_collision o (userLogs trivExt u1)))
        ∧ ∀ o ∈ ([()] : List Unit),
          (evalUser trivExt baseMC [] [()] [()] u1).moving_obst_collision
            (trivExt.m_pk o)
            = some (trivExt.m_collision o (userLogs trivExt u1))) :=
  ⟨⟨by decide, by decide⟩,
   C6_collision_maps trivExt baseMC [] [()] [()] u1 (by decide)
     (by decide)⟩

/-- C7: uas_telem interop rates are computed from the deduped per-period
telemetry logs fed back in (the same sequences the other evaluators use),
while server_info and obst_info rates come from their own access-log rate
calls; each class stores the rates pair's first element as max and its
second as avg. -/
theorem C7_interop_rate_sources {S M Z : Type} (ext : Ext S M Z)
    (mc : MissionConfig) (fz : List Z) (so : List S) (mo : List M)
    (u : User) :
    (evalUser ext mc fz so mo u).interop_times
    = { server_info :=
          { max := (ext.server_info_rates u (ext.flights u)).1
            avg := (ext.server_info_rates u (ext.flights u)).2 }
        obst_info :=
          { max := (ext.obstacle_rates u (ext.flights u)).1
            avg := (ext.obstacle_rates u (ext.flights u)).2 }
        uas_telem :=
          { max := (ext.uas_rates u (ext.flights u)
              (userPeriodLogs ext u)).1
            avg := (ext.uas_rates u (ext.flights u)
              (userPeriodLogs ext u)).2 } } :=
  evalUser_interop_times ext mc fz so mo u

/-- C8: the result of evaluate_teams is a deterministic function of its
inputs with no dependence on the order competitors are enumerated in:
permuting the user list leaves the result map pointwise unchanged. -/
theorem C8_order_invariance {S M Z : Type} (ext : Ext S M Z)
    (mc : MissionConfig) (fz : List Z) (so : List S) (mo : List M)
    (users1 users2 : List User) (h : users1.Perm users2) :
    mc.evaluate_teams ext fz so mo users1
    = mc.evaluate_teams ext fz so mo users2 := by
  funext u
  rw [evaluate_teams_apply, evaluate_teams_apply]
  by_cases hc : u ∈ users1 ∧ u.is_superuser = false
  · rw [if_pos hc, if_pos ⟨h.mem_iff.mp hc.1, hc.2⟩]
  · rw [if_neg hc, if_neg fun hc2 => hc ⟨h.mem_iff.mpr hc2.1, hc2.2⟩]

/-- C8 witness: two two-user lists in opposite orders. -/
theorem C8_witness :
    List.Perm [u1, u2] [u2, u1]
    ∧ baseMC.evaluate_teams trivExt [] [] [] [u1, u2]
      = baseMC.evaluate_teams trivExt [] [] [] [u2, u1] :=
  ⟨by decide,
   C8_order_invariance trivExt baseMC [] [] [] [u1, u2] [u2, u1]
     (by decide)⟩

/-- C10: with zero search grid points the kml export fails at the
unconditional search_area[0] indexing after the loop, rather than
producing a document with an empty search-area polygon; with at least one
point it produces the polygon closed by repeating the first coordinate. -/
theorem C10_kml_search_area (mc : MissionConfig) :
    (mc.search_grid_points = [] → mc.kml = none)
    ∧ ∀ p ps, mc.search_grid_points = p :: ps →
        mc.kml = some
          { waypoint_coords := mc.mission_waypoints.map kml_coord
            search_area_boundary :=
              mc.search_grid_points.map kml_coord ++ [kml_coord p] } := by
  constructor
  · intro h
    simp [MissionConfig.kml, h]
  · intro p ps h
    simp [MissionConfig.kml, h]

/-- C10 witness: the base mission has no search grid points and its kml
export fails. -/
theorem C10_witness :
    baseMC.search_grid_points = [] ∧ baseMC.kml = none :=
  ⟨rfl, (C10_kml_search_area baseMC).1 rfl⟩

end AuvsiSuas
